import Mathlib

/-!
Verification development for the CodeCloze pull-request review webhook.

This file shallowly embeds the request-handling pipeline of the repository:
the webhook route (`src/app/api/github/webhook/route.ts`), the two LLM stage
functions (`src/lib/llm/stage1Gating.ts`, `src/lib/llm/client.ts`), the
GitHub App JWT payload (`src/lib/github/appAuth.ts`) and the comment poster.

External platform primitives (the HMAC digest, `JSON.parse`, the network)
are modelled as explicit parameters / oracle inputs: the embedding captures
the control flow and data transformations of the repository's own code, with
the results of each outbound call supplied by an `Oracle` value.  JavaScript
dynamic values produced by `JSON.parse` are modelled by the `Json` inductive
below, together with JS truthiness and JS property-access semantics
(including the fact that reading a property of `null` throws a TypeError).
-/

/-- JSON values as produced by `JSON.parse` (JS numbers modelled as `Rat`). -/
inductive Json where
  | null
  | bool (b : Bool)
  | num (q : Rat)
  | str (s : String)
  | arr (elems : List Json)
  | obj (fields : List (String × Json))

/-- JS truthiness of a JSON value (`undefined` is handled at `Option` level). -/
def Json.truthy : Json → Bool
  | .null => false
  | .bool b => b
  | .num q => q != 0
  | .str s => s != ""
  | .arr _ => true
  | .obj _ => true

/-- Non-throwing JS property read on a value already known not to be `null`:
objects yield the named field (or `undefined` = `none`), every other
non-null value yields `undefined`. -/
def jsGetOpt : Json → String → Option Json
  | .obj fields, k => (fields.find? (fun p => p.1 == k)).map (fun p => p.2)
  | _, _ => none

/-- JS property read `x.k`: reading a property of `null` throws a TypeError
(modelled as `Except.error`); otherwise behaves like `jsGetOpt`. -/
def jsGetProp (j : Json) (k : String) : Except String (Option Json) :=
  match j with
  | .null => .error ("TypeError: cannot read properties of null (reading " ++ k ++ ")")
  | j => .ok (jsGetOpt j k)

/-- Optional chaining `a?.k`: `undefined`/`null` receivers yield `undefined`,
anything else is an ordinary (non-throwing) property read. -/
def optChain (a : Option Json) (k : String) : Option Json :=
  match a with
  | none => none
  | some .null => none
  | some j => jsGetOpt j k

/-- Truthiness of a possibly-`undefined` JS value. -/
def jsTruthyOpt : Option Json → Bool
  | none => false
  | some j => j.truthy

/-- UTF-8 byte size of one character (the model of Node's `Buffer` encoding). -/
def charUtf8Size (c : Char) : Nat :=
  if c.toNat < 0x80 then 1
  else if c.toNat < 0x800 then 2
  else if c.toNat < 0x10000 then 3
  else 4

/-- UTF-8 byte length of a string, the size of `Buffer.from(s)`. -/
def bufLen (s : String) : Nat :=
  s.toList.foldl (fun n c => n + charUtf8Size c) 0

/-- `crypto.timingSafeEqual(Buffer.from(a), Buffer.from(b))`: throws a
`RangeError` when the two buffers have different byte lengths, otherwise
compares contents (equal UTF-8 bytes coincide with string equality). -/
def timingSafeEqual (a b : String) : Except String Bool :=
  if bufLen a = bufLen b then .ok (a == b)
  else .error "RangeError: Input buffers must have the same byte length"

/-- Does `pat` occur as a contiguous sublist of `l` (JS `String.includes`)? -/
def listHasSub (pat : List Char) : List Char → Bool
  | [] => pat.isEmpty
  | c :: cs => pat.isPrefixOf (c :: cs) || listHasSub pat cs

/-- JS `s.includes(pat)`. -/
def strIncludes (s pat : String) : Bool :=
  listHasSub pat.toList s.toList

/-- Split `l` around the first occurrence of `pat` (helper for JS
`String.replace` with a string pattern, which replaces only the first hit). -/
def splitOnSub (pat : List Char) : List Char → Option (List Char × List Char)
  | [] => if pat.isEmpty then some ([], []) else none
  | c :: cs =>
    if pat.isPrefixOf (c :: cs) then some ([], (c :: cs).drop pat.length)
    else
      match splitOnSub pat cs with
      | some (pre, post) => some (c :: pre, post)
      | none => none

/-- JS `s.replace(pat, repl)` with a string pattern: first occurrence only. -/
def replaceFirst (s pat repl : String) : String :=
  match splitOnSub pat.toList s.toList with
  | some (pre, post) => String.mk (pre ++ repl.toList ++ post)
  | none => s

/-- Drop characters up to (and keeping) the first opening brace. -/
def fromFirstBrace : List Char → Option (List Char)
  | [] => none
  | c :: cs => if c = '{' then some (c :: cs) else fromFirstBrace cs

/-- Keep the prefix of `l` running through the last closing brace of `l`
(`none` when `l` has no closing brace). -/
def takeThroughLastClose : List Char → Option (List Char)
  | [] => none
  | c :: cs =>
    match takeThroughLastClose cs with
    | some t => some (c :: t)
    | none => if c = '}' then some [c] else none

/-- The substring the source hands to `JSON.parse`: the match of the greedy
regex used in both stage functions, which spans from the first opening brace
to the last closing brace of the response. -/
def firstToLastBrace (s : String) : Option String :=
  ((fromFirstBrace s.toList).bind takeThroughLastClose).map (fun l => String.mk l)

/-- Modelled from the spec: scanner for the first balanced-brace substring.
Consumes characters while tracking brace depth (starting from a list whose
head is an opening brace via `fromFirstBrace`), returning the balanced
object together with the unconsumed remainder.  This definition follows the
spec's words ("extract the first balanced JSON object", "first
balanced-brace substring") and exists only to be compared with the source's
`firstToLastBrace`. -/
def balancedSplit : Nat → List Char → Option (List Char × List Char)
  | _, [] => none
  | d, c :: cs =>
    if c = '}' then
      if d = 1 then some ([c], cs)
      else
        match balancedSplit (d - 1) cs with
        | some (t, r) => some (c :: t, r)
        | none => none
    else
      match balancedSplit (if c = '{' then d + 1 else d) cs with
      | some (t, r) => some (c :: t, r)
      | none => none

/-- Modelled from the spec: the first balanced JSON object of `s` together
with the remainder of the string after it. -/
def firstBalancedSplit (s : String) : Option (List Char × List Char) :=
  (fromFirstBrace s.toList).bind (balancedSplit 0)

/-- Modelled from the spec: the first balanced JSON object of `s`. -/
def firstBalancedObject (s : String) : Option String :=
  (firstBalancedSplit s).map (fun p => String.mk p.1)

/-- A validated review finding (`Finding` in `src/lib/llm/client.ts`). -/
structure Finding where
  summary : String
  lines : String
  failure_mode : String
  confidence : Rat
deriving DecidableEq, Repr

/-- The per-entry validation of `runReviewModel`: all three text fields must
be strings and `confidence` a number within `[0, 1]`.  Only called on
non-null entries (a null entry throws before this check is reached). -/
def findingOfJson (j : Json) : Option Finding :=
  match jsGetOpt j "summary", jsGetOpt j "lines",
        jsGetOpt j "failure_mode", jsGetOpt j "confidence" with
  | some (.str s), some (.str l), some (.str fm), some (.num c) =>
    if 0 ≤ c ∧ c ≤ 1 then some ⟨s, l, fm, c⟩ else none
  | _, _, _, _ => none

/-- The validation loop of `runReviewModel` over the parsed `findings`
array.  Reading `.summary` of a `null` entry throws a TypeError, which
escapes the loop (and is later turned into an empty result by the stage's
catch-all); every other failing entry is dropped individually. -/
def validateFindings : List Json → Except String (List Finding)
  | [] => .ok []
  | Json.null :: _ =>
    .error "TypeError: cannot read properties of null (reading summary)"
  | j :: rest =>
    match validateFindings rest with
    | .error e => .error e
    | .ok fs =>
      .ok (match findingOfJson j with
           | some f => f :: fs
           | none => fs)

/-- `runGatingModel` (`src/lib/llm/stage1Gating.ts`).  `parseJson` abstracts
the platform's `JSON.parse`; `dep` is `AZURE_OPENAI_GATING_DEPLOYMENT`; `llm`
is the outcome of the `callLLM` network call.  A missing deployment name
throws before the `try` block; every failure inside the `try` is caught and
fails open to `true`. -/
def runGatingModel (parseJson : String → Except String Json)
    (dep : Option String) (llm : Except String String) : Except String Bool :=
  match dep with
  | none => .error "AZURE_OPENAI_GATING_DEPLOYMENT not set"
  | some _ =>
    .ok (match llm with
      | .error _ => true
      | .ok response =>
        match firstToLastBrace response with
        | none => true
        | some cand =>
          match parseJson cand with
          | .error _ => true
          | .ok parsed =>
            match jsGetProp parsed "review" with
            | .ok (some (.bool b)) => b
            | _ => true)

/-- `runReviewModel` (`src/lib/llm/client.ts`).  A missing deployment name
throws before the `try` block; every failure inside the `try` (upstream
error, failed extraction/parse, invalid structure, TypeError from a null
entry) yields `findings = []`. -/
def runReviewModel (parseJson : String → Except String Json)
    (dep : Option String) (llm : Except String String) :
    Except String (List Finding) :=
  match dep with
  | none => .error "AZURE_OPENAI_REVIEW_DEPLOYMENT not set"
  | some _ =>
    .ok (match llm with
      | .error _ => []
      | .ok response =>
        match firstToLastBrace response with
        | none => []
        | some cand =>
          match parseJson cand with
          | .error _ => []
          | .ok parsed =>
            match jsGetProp parsed "findings" with
            | .error _ => []
            | .ok none => []
            | .ok (some v) =>
              if v.truthy = false then []
              else
                match v with
                | .arr items =>
                  (match validateFindings items with
                   | .ok fs => fs
                   | .error _ => [])
                | _ => [])

/-- The route's gating step: `runGatingModel` under the route's `try`/`catch`
(`route.ts`, "Fail open - assume review is needed"). -/
def routeGatingDecision (parseJson : String → Except String Json)
    (dep : Option String) (llm : Except String String) : Bool :=
  match runGatingModel parseJson dep llm with
  | .ok b => b
  | .error _ => true

/-- The route's review step: `runReviewModel` under the route's `try`/`catch`
(`route.ts`, "On error, return empty findings"). -/
def routeReviewFindings (parseJson : String → Except String Json)
    (dep : Option String) (llm : Except String String) : List Finding :=
  match runReviewModel parseJson dep llm with
  | .ok fs => fs
  | .error _ => []

/-- Stable descending insertion by confidence: the model of ES2019
`Array.prototype.sort` with comparator `(a, b) => b.confidence - a.confidence`
(stable; an earlier element stays before a later one of equal confidence). -/
def insertDesc (f : Finding) : List Finding → List Finding
  | [] => [f]
  | g :: gs =>
    if f.confidence < g.confidence then g :: insertDesc f gs
    else f :: g :: gs

/-- Stable sort of findings by confidence, descending (`route.ts` step 7). -/
def sortDesc : List Finding → List Finding
  | [] => []
  | f :: fs => insertDesc f (sortDesc fs)

/-- One rendered finding block (`route.ts` step 7, template literal). -/
def renderFinding (f : Finding) : String :=
  "**" ++ f.summary ++ "**\n\nWhy this could break:\n" ++ f.failure_mode ++
    "\n\nRelevant diff:\n```\n" ++ f.lines ++ "\n```"

/-- The fixed reassurance comment body (`route.ts` step 7). -/
def reassuranceText : String :=
  "✅ No major issues detected\n\nI reviewed this diff for realistic runtime, logic, and state-related risks.\nNothing stood out as likely to cause production issues.\n\nThis change appears low risk to merge."

/-- The findings-report comment body: sort descending by confidence, keep at
most the top 3, join blocks with a separator under the risk heading. -/
def riskComment (fs : List Finding) : String :=
  "⚠️ Possible bug risk\n\n" ++
    String.intercalate "\n\n---\n\n" (((sortDesc fs).take 3).map renderFinding)

/-- Comment body chosen in the review branch of `route.ts` step 7: the
reassurance text when the validated findings list is empty, otherwise the
findings report. -/
def renderComment (fs : List Finding) : String :=
  if fs.isEmpty then reassuranceText else riskComment fs

/-- One role-tagged input message for the Responses API. -/
structure InputMessage where
  role : String
  content : String
deriving DecidableEq, Repr

/-- `JsonSchemaDefinition` from `src/lib/llm/client.ts`. -/
inductive JsonSchemaDefinition where
  | mk (type : String) (description : Option String)
       (properties : List (String × JsonSchemaDefinition))
       (required : List String)
       (items : Option JsonSchemaDefinition)
       (minimum : Option Rat) (maximum : Option Rat)

/-- `TextFormatRequest` from `src/lib/llm/client.ts` (the `text.format`
structured-output specification). -/
structure TextFormatRequest where
  type : String
  name : Option String
  description : Option String
  instructions : Option String
  json_schema : JsonSchemaDefinition

/-- The input accepted by `callLLM`: a bare prompt string or a message list. -/
inductive LLMInput where
  | str (s : String)
  | msgs (ms : List InputMessage)

/-- `callLLM`'s normalization: a bare string becomes one user message. -/
def normalizeInput : LLMInput → List InputMessage
  | .str s => [⟨"user", s⟩]
  | .msgs ms => ms

/-- The `requestBody` object built by `callLLM` (`src/lib/llm/client.ts`):
`model`, `input`, `max_output_tokens`, `reasoning: (effort)`, and optionally
`text.format`.  The TypeScript type of this object contains no `temperature`
field. -/
structure LLMRequest where
  model : String
  input : List InputMessage
  max_output_tokens : Nat
  reasoningEffort : String
  text : Option TextFormatRequest

/-- The exact set of top-level keys present in the JSON-serialized request
body sent by `callLLM` (`JSON.stringify(requestBody)`). -/
def LLMRequest.fieldKeys (r : LLMRequest) : List String :=
  ["model", "input", "max_output_tokens", "reasoning"] ++
    (match r.text with | some _ => ["text"] | none => [])

/-- `callLLM`'s construction of the request body; reasoning effort is the
fixed string literal of the source. -/
def buildLLMRequest (deploymentName : String) (input : LLMInput)
    (maxTokens : Nat) (textFormat : Option TextFormatRequest) : LLMRequest :=
  { model := deploymentName
  , input := normalizeInput input
  , max_output_tokens := maxTokens
  , reasoningEffort := "low"
  , text := textFormat }

/-- `GATING_PROMPT` from `src/lib/llm/stage1Gating.ts`. -/
def GATING_PROMPT : String :=
  "You are reviewing a pull request diff.\n\nDetermine whether there is any plausible bug risk that could realistically cause:\n- runtime errors\n- logic regressions\n- auth or state bugs\n- data integrity issues\n\nIgnore:\n- formatting\n- refactors\n- renames\n- comments\n- style changes\n\nUse the structured schema enforced by the Responses API to reply. Do not add extra text beyond the schema.\n\nIf no meaningful risk exists:\n\x7b\"review\": false\x7d\n\nIf any realistic risk might exist:\n\x7b\"review\": true\x7d\n\nDiff:\n---\n\x7bDIFF\x7d\n---"

/-- `GATING_RESPONSE_FORMAT` from `src/lib/llm/stage1Gating.ts`. -/
def GATING_RESPONSE_FORMAT : TextFormatRequest :=
  { type := "json_schema"
  , name := some "gating_review"
  , description := some "Indicates whether a full review is required based on the diff"
  , instructions := some "Return exactly one JSON object matching this schema without additional commentary."
  , json_schema :=
      .mk "object" none
        [("review", .mk "boolean"
            (some "True when a realistic bug risk warrants further review")
            [] [] none none none)]
        ["review"] none none none }

/-- The request body `runGatingModel` sends for a given diff: prompt with the
first `\x7bDIFF\x7d` placeholder substituted, token limit 2000, the gating
response format, and `callLLM`'s fixed reasoning effort. -/
def gatingRequest (deploymentName diffText : String) : LLMRequest :=
  buildLLMRequest deploymentName
    (.str (replaceFirst GATING_PROMPT "\x7bDIFF\x7d" diffText))
    2000 (some GATING_RESPONSE_FORMAT)

/-- The JWT claims object passed to `jwt.sign` by `createAppJwt`
(`src/lib/github/appAuth.ts`): issued 60 seconds in the past for clock-skew
safety, expiring 9 minutes in the future. -/
structure JwtClaims where
  iat : Int
  exp : Int
  iss : String
deriving DecidableEq, Repr

/-- The payload of the identity assertion as a function of the current Unix
time `now` (`Math.floor(Date.now() / 1000)`) and the app id. -/
def createAppJwtPayload (now : Int) (appId : String) : JwtClaims :=
  { iat := now - 60, exp := now + 9 * 60, iss := appId }

/-- Environment configuration read by the route and the stage functions. -/
structure Env where
  webhookSecret : Option String
  gatingDeployment : Option String
  reviewDeployment : Option String

/-- The two request headers the route reads. -/
structure ReqHeaders where
  signature : Option String
  event : Option String

/-- One inbound webhook request: raw body plus headers. -/
structure Req where
  rawBody : String
  headers : ReqHeaders

/-- Outcomes of the outbound calls made during one invocation, supplied by
the environment: the installation-token exchange, the diff fetch (errors
carry the upstream status and body), the two model calls, and the comment
post (errors carry the upstream status and body). -/
structure Oracle where
  tokenResult : Except String String
  diffResult : Except (Nat × String) String
  gatingLLM : Except String String
  reviewLLM : Except String String
  postResult : Except (Nat × String) Unit

/-- How many times each pipeline stage was entered during one invocation,
and the comment body handed to the comment poster (if posting was reached). -/
structure Trace where
  tokenStageCalls : Nat
  diffCalls : Nat
  gatingStageCalls : Nat
  reviewStageCalls : Nat
  postCalls : Nat
  postBody : Option String
deriving DecidableEq, Repr

/-- Trace of an invocation that terminated before any outbound call. -/
def zeroTrace : Trace := ⟨0, 0, 0, 0, 0, none⟩

/-- Trace of an invocation that failed at the credential stage. -/
def tokenFailTrace : Trace := ⟨1, 0, 0, 0, 0, none⟩

/-- Trace of an invocation that failed at the diff fetch. -/
def diffFailTrace : Trace := ⟨1, 1, 0, 0, 0, none⟩

/-- Trace of an invocation that reached the posting stage. -/
def fullTrace (needsReview : Bool) (body : String) : Trace :=
  ⟨1, 1, 1, if needsReview then 1 else 0, 1, some body⟩

/-- The terminal HTTP responses of the route, by exit point. -/
inductive Response where
  | misconfigured
  | invalidSignature
  | invalidJson (details : String)
  | ignored
  | missingFields
  | authFailed (details : String)
  | diffFetchFailed (upstreamStatus : Nat) (details : String)
  | commentFailed (details : String)
  | success (needsReview : Bool) (findingsCount : Nat)
  | internalError (details : String)
deriving DecidableEq, Repr

/-- The HTTP status code attached to each response in `route.ts`. -/
def Response.status : Response → Nat
  | .misconfigured => 500
  | .invalidSignature => 401
  | .invalidJson _ => 400
  | .ignored => 200
  | .missingFields => 400
  | .authFailed _ => 500
  | .diffFetchFailed _ _ => 500
  | .commentFailed _ => 500
  | .success _ _ => 200
  | .internalError _ => 500

/-- The invocation token required in the comment body. -/
def invocationToken : String := "@codecloze review"

/-- `payload.comment?.body || ""` followed by `.includes("@codecloze review")`.
A falsy body gives the empty string (which does not contain the token);
calling `.includes` on a truthy non-string/non-array value throws; a JS
array has its own `includes` (strict-equality element search). -/
def invocationCheck (payload : Json) : Except String Bool :=
  match jsGetProp payload "comment" with
  | .error e => .error e
  | .ok c =>
    match optChain c "body" with
    | none => .ok false
    | some v =>
      if v.truthy = false then .ok false
      else
        match v with
        | .str s => .ok (strIncludes s invocationToken)
        | .arr es =>
          .ok (es.any (fun e => match e with
                | .str t => t == invocationToken
                | _ => false))
        | _ => .error "TypeError: invocationComment.includes is not a function"

/-- `payload.issue?.pull_request` truthiness (the PR marker check). -/
def prCheck (payload : Json) : Except String Bool :=
  match jsGetProp payload "issue" with
  | .error e => .error e
  | .ok issue => .ok (jsTruthyOpt (optChain issue "pull_request"))

/-- The required-field extraction and truthiness test of `route.ts`:
`installation?.id`, `repository?.owner?.login`, `repository?.name`,
`issue?.number` must all be truthy (JS `!x` — so `0`, `""`, `null` and
absence all count as missing). -/
def requiredFieldsTruthy (payload : Json) : Except String Bool :=
  match jsGetProp payload "installation" with
  | .error e => .error e
  | .ok inst =>
    match jsGetProp payload "repository" with
    | .error e => .error e
    | .ok repo =>
      match jsGetProp payload "issue" with
      | .error e => .error e
      | .ok issue =>
        .ok (jsTruthyOpt (optChain inst "id")
          && jsTruthyOpt (optChain (optChain repo "owner") "login")
          && jsTruthyOpt (optChain repo "name")
          && jsTruthyOpt (optChain issue "number"))

/-- Steps 6-8 of `route.ts`: gating decision (fail-open), conditional review
stage (failures become empty findings), comment-body rendering, and the
single comment post whose failure is the only surfaced pipeline error. -/
def pipelineOutcome (parseJson : String → Except String Json)
    (gdep rdep : Option String) (gllm rllm : Except String String)
    (post : Except (Nat × String) Unit) : Response × Trace :=
  let needsReview := routeGatingDecision parseJson gdep gllm
  let findings := if needsReview then routeReviewFindings parseJson rdep rllm else []
  let commentBody := if needsReview then renderComment findings else reassuranceText
  match post with
  | .error (st, txt) =>
    (.commentFailed ("Failed to post comment: " ++ toString st ++ " " ++ txt),
     fullTrace needsReview commentBody)
  | .ok _ =>
    (.success needsReview (if needsReview then findings.length else 0),
     fullTrace needsReview commentBody)

/-- The body of the route handler's outer `try` block, in source order:
secret check, signature verification, JSON parse of the raw body (local
catch → 400), event filter, invocation check, PR check, required fields,
token exchange (local catch → 500), diff fetch (non-2xx → 500), then the
review pipeline and the comment post.  The guard `!signature ||
!crypto.timingSafeEqual(...)` short-circuits on a JS-falsy signature — a
missing header or a present empty-string one — rejecting with 401 before
`timingSafeEqual` runs; only a non-empty signature reaches the comparison,
which may throw.  A returned `Except.error` is an uncaught JS exception. -/
def webhookCore (hmacHex : String → String → String)
    (parseJson : String → Except String Json)
    (env : Env) (o : Oracle) (req : Req) :
    Except String (Response × Trace) :=
  match env.webhookSecret with
  | none => .ok (.misconfigured, zeroTrace)
  | some secret =>
    match req.headers.signature with
    | none => .ok (.invalidSignature, zeroTrace)
    | some sig =>
      if sig = "" then .ok (.invalidSignature, zeroTrace) else
      match timingSafeEqual sig ("sha256=" ++ hmacHex secret req.rawBody) with
      | .error e => .error e
      | .ok sigOk =>
        if sigOk = false then .ok (.invalidSignature, zeroTrace)
        else
          match parseJson req.rawBody with
          | .error e => .ok (.invalidJson e, zeroTrace)
          | .ok payload =>
            if req.headers.event ≠ some "issue_comment" then .ok (.ignored, zeroTrace)
            else
              match jsGetProp payload "action" with
              | .error e => .error e
              | .ok act =>
                if (match act with
                    | some (Json.str a) => a == "created"
                    | _ => false) = false then .ok (.ignored, zeroTrace)
                else
                  match invocationCheck payload with
                  | .error e => .error e
                  | .ok hasToken =>
                    if hasToken = false then .ok (.ignored, zeroTrace)
                    else
                      match prCheck payload with
                      | .error e => .error e
                      | .ok isPR =>
                        if isPR = false then .ok (.ignored, zeroTrace)
                        else
                          match requiredFieldsTruthy payload with
                          | .error e => .error e
                          | .ok fieldsOk =>
                            if fieldsOk = false then .ok (.missingFields, zeroTrace)
                            else
                              match o.tokenResult with
                              | .error msg => .ok (.authFailed msg, tokenFailTrace)
                              | .ok _tok =>
                                match o.diffResult with
                                | .error (st, txt) =>
                                  .ok (.diffFetchFailed st txt, diffFailTrace)
                                | .ok _diff =>
                                  .ok (pipelineOutcome parseJson
                                        env.gatingDeployment env.reviewDeployment
                                        o.gatingLLM o.reviewLLM o.postResult)

/-- The full route handler `POST` of `route.ts`: `webhookCore` under the
global catch-all, which converts any uncaught exception into a 500. -/
def handleWebhook (hmacHex : String → String → String)
    (parseJson : String → Except String Json)
    (env : Env) (o : Oracle) (req : Req) : Response × Trace :=
  match webhookCore hmacHex parseJson env o req with
  | .ok rt => rt
  | .error e => (.internalError e, zeroTrace)

/-- Modelled from the spec: the claim's per-entry validity condition for a
finding — `summary`, `lines`, `failure_mode` are strings and `confidence` is
a number in `[0, 1]`. -/
def claimValidFinding (j : Json) : Bool :=
  match jsGetOpt j "summary", jsGetOpt j "lines",
        jsGetOpt j "failure_mode", jsGetOpt j "confidence" with
  | some (.str _), some (.str _), some (.str _), some (.num c) =>
    decide (0 ≤ c) && decide (c ≤ 1)
  | _, _, _, _ => false

/-- The gating-stage failure modes enumerated by the spec: missing
deployment configuration, upstream error, unextractable/unparseable output,
or a parsed value whose `review` field is missing or not a boolean. -/
def gatingStageFails (parseJson : String → Except String Json)
    (dep : Option String) (llm : Except String String) : Prop :=
  dep = none
  ∨ (∃ e, llm = .error e)
  ∨ (∃ resp, llm = .ok resp ∧ firstToLastBrace resp = none)
  ∨ (∃ resp cand e, llm = .ok resp ∧ firstToLastBrace resp = some cand
      ∧ parseJson cand = .error e)
  ∨ (∃ resp cand parsed, llm = .ok resp ∧ firstToLastBrace resp = some cand
      ∧ parseJson cand = .ok parsed
      ∧ ∀ b : Bool, jsGetProp parsed "review" ≠ .ok (some (.bool b)))

/-- The review-stage failure modes enumerated by the spec: missing
deployment configuration, upstream error, unextractable/unparseable output,
or a parsed value without a `findings` array. -/
def reviewStageFails (parseJson : String → Except String Json)
    (dep : Option String) (llm : Except String String) : Prop :=
  dep = none
  ∨ (∃ e, llm = .error e)
  ∨ (∃ resp, llm = .ok resp ∧ firstToLastBrace resp = none)
  ∨ (∃ resp cand e, llm = .ok resp ∧ firstToLastBrace resp = some cand
      ∧ parseJson cand = .error e)
  ∨ (∃ resp cand parsed, llm = .ok resp ∧ firstToLastBrace resp = some cand
      ∧ parseJson cand = .ok parsed
      ∧ ∀ items : List Json, jsGetProp parsed "findings" ≠ .ok (some (.arr items)))

/-- A findings entry that passes every validation check (fixture). -/
def goodFindingJson : Json :=
  Json.obj [("summary", .str "s"), ("lines", .str "l"),
            ("failure_mode", .str "f"), ("confidence", .num 1)]

/-- A parser fixture: the gating candidate parses to `review: true`, any
other candidate to an object with four valid findings. -/
def fourFindingsParser : String → Except String Json :=
  fun s =>
    if s = "\x7bG\x7d" then .ok (Json.obj [("review", .bool true)])
    else .ok (Json.obj [("findings", Json.arr
      [Json.obj [("summary", .str "f1"), ("lines", .str "l1"),
                 ("failure_mode", .str "m1"), ("confidence", .num 1)],
       Json.obj [("summary", .str "f2"), ("lines", .str "l2"),
                 ("failure_mode", .str "m2"), ("confidence", .num 0)],
       Json.obj [("summary", .str "f3"), ("lines", .str "l3"),
                 ("failure_mode", .str "m3"), ("confidence", .num 1)],
       Json.obj [("summary", .str "f4"), ("lines", .str "l4"),
                 ("failure_mode", .str "m4"), ("confidence", .num 0)]])])

/-- Parser fixture: every string parses to a fully-populated invocation
payload (used to drive concrete runs of the route). -/
def fullPayloadParser : String → Except String Json :=
  fun _ => .ok (Json.obj
    [("action", .str "created"),
     ("comment", .obj [("body", .str "please @codecloze review this")]),
     ("issue", .obj [("pull_request", .obj []), ("number", .num 7)]),
     ("installation", .obj [("id", .num 1)]),
     ("repository", .obj [("owner", .obj [("login", .str "acme")]),
                          ("name", .str "widgets")])])

/-- Environment fixture with secret and both deployments configured. -/
def envAll : Env := ⟨some "sec", some "gd", some "rd"⟩

/-- Digest fixture: a constant stand-in for the HMAC hex digest. -/
def hmacConst : String → String → String := fun _ _ => "h"

/-- Request fixture whose signature matches `hmacConst`'s digest. -/
def reqInvoke : Req := ⟨"body", ⟨some "sha256=h", some "issue_comment"⟩⟩

/-- Oracle fixture whose comment post fails with an upstream 503. -/
def oraclePostFail : Oracle :=
  ⟨.ok "tok", .ok "diff", .ok "x", .ok "x", .error (503, "oops")⟩
lemma takeThroughLastClose_of_no_close {l : List Char} (h : '}' ∉ l) :
    takeThroughLastClose l = none := by
  induction l with
  | nil => rfl
  | cons c cs ih =>
    have hc : c ≠ '}' := fun e => h (by simp [e])
    have hcs : '}' ∉ cs := fun m => h (List.mem_cons_of_mem _ m)
    simp [takeThroughLastClose, ih hcs, hc]

lemma balancedSplit_takeThrough {r : List Char} (hr : '}' ∉ r) :
    ∀ {l : List Char} {d : Nat} {t : List Char},
      balancedSplit d l = some (t, r) → takeThroughLastClose l = some t := by
  intro l
  induction l with
  | nil => intro d t h; simp [balancedSplit] at h
  | cons c cs ih =>
    intro d t h
    simp only [balancedSplit] at h
    split at h
    · rename_i hc
      split at h
      · simp only [Option.some.injEq, Prod.mk.injEq] at h
        obtain ⟨ht, hrcs⟩ := h
        subst ht; subst hrcs
        simp [takeThroughLastClose, takeThroughLastClose_of_no_close hr, hc]
      · split at h
        · rename_i t' r' h'
          simp only [Option.some.injEq, Prod.mk.injEq] at h
          obtain ⟨ht, hrr⟩ := h
          subst hrr
          have := ih h'
          simp [takeThroughLastClose, this, ← ht]
        · exact absurd h (by simp)
    · split at h
      · rename_i t' r' h'
        simp only [Option.some.injEq, Prod.mk.injEq] at h
        obtain ⟨ht, hrr⟩ := h
        subst hrr
        have := ih h'
        simp [takeThroughLastClose, this, ← ht]
      · exact absurd h (by simp)

/-- C8: the identity-assertion payload is issued exactly 60 seconds in the
past (so at most 60 seconds, the clock-skew tolerance) and its total
lifetime, expiry minus issued-at, is exactly 10 minutes (so never exceeds
10 minutes). -/
theorem c8_jwt_window (now : Int) (appId : String) :
    now - (createAppJwtPayload now appId).iat ≤ 60
    ∧ (createAppJwtPayload now appId).iat ≤ now
    ∧ (createAppJwtPayload now appId).exp - (createAppJwtPayload now appId).iat ≤ 10 * 60 := by
  refine ⟨?_, ?_, ?_⟩ <;> simp [createAppJwtPayload]

/-- C9 counterexample: at a concrete gating invocation the serialized
request body contains no `temperature` key at all (the claim's
"zero-temperature (deterministic) decoding" is not requested), even though
the bounded output size is present. -/
theorem c9_gating_request_counterexample :
    "temperature" ∉ (gatingRequest "gpt-5-nano" "diff --git a/x b/x").fieldKeys
    ∧ (gatingRequest "gpt-5-nano" "diff --git a/x b/x").max_output_tokens = 2000 := by
  constructor
  · simp [gatingRequest, buildLLMRequest, LLMRequest.fieldKeys]
  · rfl

/-- C9 amended: every gating-stage request specifies a bounded maximum
output size of 2000 tokens and low reasoning effort, and its serialized
body carries no `temperature` parameter (determinism is not requested via
temperature). -/
theorem c9_gating_request_amended (dep diffText : String) :
    (gatingRequest dep diffText).max_output_tokens = 2000
    ∧ (gatingRequest dep diffText).reasoningEffort = "low"
    ∧ "temperature" ∉ (gatingRequest dep diffText).fieldKeys := by
  refine ⟨rfl, rfl, ?_⟩
  simp [gatingRequest, buildLLMRequest, LLMRequest.fieldKeys]

/-- C7 counterexample: when the model response contains two JSON objects,
the substring handed to the parser spans from the first opening brace to
the LAST closing brace — not the first balanced JSON object, contradicting
the claim. -/
theorem c7_extraction_counterexample :
    firstToLastBrace "\x7b\"a\":1\x7d x \x7b\"b\":2\x7d"
      = some "\x7b\"a\":1\x7d x \x7b\"b\":2\x7d"
    ∧ firstBalancedObject "\x7b\"a\":1\x7d x \x7b\"b\":2\x7d" = some "\x7b\"a\":1\x7d"
    ∧ firstToLastBrace "\x7b\"a\":1\x7d x \x7b\"b\":2\x7d"
        ≠ firstBalancedObject "\x7b\"a\":1\x7d x \x7b\"b\":2\x7d" := by
  refine ⟨by decide, by decide, by decide⟩

lemma balancedSplit_append :
    ∀ {l : List Char} {d : Nat} {t r : List Char},
      balancedSplit d l = some (t, r) → l = t ++ r := by
  intro l
  induction l with
  | nil => intro d t r h; simp [balancedSplit] at h
  | cons c cs ih =>
    intro d t r h
    simp only [balancedSplit] at h
    split at h
    · split at h
      · simp only [Option.some.injEq, Prod.mk.injEq] at h
        obtain ⟨ht, hr⟩ := h
        subst ht; subst hr
        simp
      · split at h
        · rename_i t2 r2 h2
          simp only [Option.some.injEq, Prod.mk.injEq] at h
          obtain ⟨ht, hr⟩ := h
          subst hr
          rw [← ht]
          simpa using ih h2
        · exact absurd h (by simp)
    · split at h
      · rename_i t2 r2 h2
        simp only [Option.some.injEq, Prod.mk.injEq] at h
        obtain ⟨ht, hr⟩ := h
        subst hr
        rw [← ht]
        simpa using ih h2
      · exact absurd h (by simp)

lemma takeThroughLastClose_of_mem {l : List Char} (h : '}' ∈ l) :
    ∃ u, takeThroughLastClose l = some u ∧ 0 < u.length := by
  induction l with
  | nil => simp at h
  | cons c cs ih =>
    by_cases hcs : '}' ∈ cs
    · obtain ⟨u, hu, hlen⟩ := ih hcs
      exact ⟨c :: u, by simp [takeThroughLastClose, hu], by simp⟩
    · have hc : c = '}' := by
        rcases List.mem_cons.mp h with h1 | h2
        · exact h1.symm
        · exact absurd h2 hcs
      subst hc
      refine ⟨['}'], ?_, by simp⟩
      simp [takeThroughLastClose, takeThroughLastClose_of_no_close hcs]

lemma takeThroughLastClose_append_of_mem {r : List Char} (hr : '}' ∈ r)
    (t : List Char) :
    ∃ u, takeThroughLastClose (t ++ r) = some u ∧ t.length < u.length := by
  induction t with
  | nil =>
    obtain ⟨u, hu, hlen⟩ := takeThroughLastClose_of_mem hr
    exact ⟨u, by simpa using hu, by simpa using hlen⟩
  | cons c t2 ih =>
    obtain ⟨u, hu, hlen⟩ := ih
    refine ⟨c :: u, ?_, by simpa using Nat.succ_lt_succ hlen⟩
    simp [takeThroughLastClose, hu]

/-- C7 amended: the substring handed to the parser is the greedy span from
the first opening brace through the last closing brace of the response,
and it coincides with the first balanced JSON object exactly when the
response contains no closing brace after that object's closing brace: if
nothing after the object contains a closing brace the two extractions
agree, and if some closing brace follows the object they differ. -/
theorem c7_extraction_amended (s : String) (t r : List Char)
    (h : firstBalancedSplit s = some (t, r)) :
    ('}' ∉ r →
      firstToLastBrace s = firstBalancedObject s
      ∧ firstToLastBrace s = some (String.mk t))
    ∧ ('}' ∈ r → firstToLastBrace s ≠ firstBalancedObject s) := by
  rcases hm : fromFirstBrace s.toList with _ | m
  · unfold firstBalancedSplit at h
    rw [hm] at h
    exact absurd h (by simp)
  · have hsplit : balancedSplit 0 m = some (t, r) := by
      unfold firstBalancedSplit at h
      rw [hm] at h
      exact h
    constructor
    · intro hr
      have ht := balancedSplit_takeThrough hr hsplit
      unfold firstToLastBrace firstBalancedObject firstBalancedSplit
      rw [hm]
      exact ⟨by simp [ht, hsplit], by simp [ht]⟩
    · intro hr
      have hmtr : m = t ++ r := balancedSplit_append hsplit
      obtain ⟨u, hu, hlen⟩ := takeThroughLastClose_append_of_mem hr t
      have h1 : firstToLastBrace s = some (String.mk u) := by
        unfold firstToLastBrace
        rw [hm, hmtr]
        simp [hu]
      have h2 : firstBalancedObject s = some (String.mk t) := by
        unfold firstBalancedObject firstBalancedSplit
        rw [hm]
        simp [hsplit]
      rw [h1, h2]
      intro hcontra
      have heq : String.mk u = String.mk t := Option.some.inj hcontra
      have hut : u = t := congrArg String.data heq
      subst hut
      exact absurd hlen (lt_irrefl _)

/-- C7 amended witness: one concrete wrapped response where the claim's
extraction and the code's extraction coincide (no trailing closing brace),
and one with a second object after the first where they differ. -/
theorem c7_extraction_amended_witness :
    firstBalancedSplit "x \x7b\"a\":1\x7d tail"
      = some ("\x7b\"a\":1\x7d".toList, " tail".toList)
    ∧ firstToLastBrace "x \x7b\"a\":1\x7d tail"
        = firstBalancedObject "x \x7b\"a\":1\x7d tail"
    ∧ firstToLastBrace "\x7b\"a\":1\x7d x \x7b\"b\":2\x7d"
        ≠ firstBalancedObject "\x7b\"a\":1\x7d x \x7b\"b\":2\x7d" := by
  have h1 : firstBalancedSplit "x \x7b\"a\":1\x7d tail"
      = some ("\x7b\"a\":1\x7d".toList, " tail".toList) := by decide
  have h2 : firstBalancedSplit "\x7b\"a\":1\x7d x \x7b\"b\":2\x7d"
      = some ("\x7b\"a\":1\x7d".toList, " x \x7b\"b\":2\x7d".toList) := by decide
  exact ⟨h1, ((c7_extraction_amended _ _ _ h1).1 (by decide)).1,
         (c7_extraction_amended _ _ _ h2).2 (by decide)⟩

/-- C5 counterexample: a findings array containing a valid entry followed by
a JSON `null` entry.  The null entry fails the type checks (its fields are
not strings) yet it is not "silently dropped": reading its `summary`
property throws, the stage's catch-all fires, and the valid entry is lost —
the result is empty rather than the list of passing entries. -/
theorem c5_findings_counterexample :
    runReviewModel
        (fun _ => .ok (Json.obj [("findings", Json.arr [goodFindingJson, Json.null])]))
        (some "dep") (.ok "\x7b\x7d")
      = .ok []
    ∧ claimValidFinding goodFindingJson = true
    ∧ runReviewModel
        (fun _ => .ok (Json.obj [("findings", Json.arr [goodFindingJson, Json.null])]))
        (some "dep") (.ok "\x7b\x7d")
      ≠ .ok ([goodFindingJson, Json.null].filterMap findingOfJson) := by
  refine ⟨rfl, by decide, ?_⟩
  have h1 : runReviewModel
      (fun _ => .ok (Json.obj [("findings", Json.arr [goodFindingJson, Json.null])]))
      (some "dep") (.ok "\x7b\x7d") = .ok ([] : List Finding) := rfl
  have h2 : [goodFindingJson, Json.null].filterMap findingOfJson
      = [⟨"s", "l", "f", 1⟩] := by decide
  rw [h1, h2]
  simp

/-- C5 amended: provided no entry of the parsed findings array is JSON
`null`, the validated result is exactly the entries passing the per-entry
checks, in their original order, and validation never fails as a whole;
the per-entry check accepts precisely the entries whose `summary`, `lines`
and `failure_mode` are strings and whose `confidence` is a number in
`[0, 1]`.  (A `null` entry instead aborts validation with a TypeError that
the stage's catch-all converts into an empty findings list.) -/
theorem c5_findings_amended (items : List Json) (hnull : Json.null ∉ items) :
    validateFindings items = .ok (items.filterMap findingOfJson)
    ∧ ∀ j : Json, claimValidFinding j = true ↔ (findingOfJson j).isSome := by
  constructor
  · induction items with
    | nil => rfl
    | cons j rest ih =>
      have hrest : Json.null ∉ rest := fun m => hnull (List.mem_cons_of_mem _ m)
      have hj : j ≠ Json.null := fun e => hnull (by simp [e])
      have ihr := ih hrest
      cases j with
      | null => exact absurd rfl hj
      | bool b =>
        simp only [validateFindings, ihr, List.filterMap_cons]
        cases hfj : findingOfJson (Json.bool b) <;> simp [hfj]
      | num q =>
        simp only [validateFindings, ihr, List.filterMap_cons]
        cases hfj : findingOfJson (Json.num q) <;> simp [hfj]
      | str s =>
        simp only [validateFindings, ihr, List.filterMap_cons]
        cases hfj : findingOfJson (Json.str s) <;> simp [hfj]
      | arr es =>
        simp only [validateFindings, ihr, List.filterMap_cons]
        cases hfj : findingOfJson (Json.arr es) <;> simp [hfj]
      | obj fields =>
        simp only [validateFindings, ihr, List.filterMap_cons]
        cases hfj : findingOfJson (Json.obj fields) <;> simp [hfj]
  · intro j
    unfold claimValidFinding findingOfJson
    split
    · rename_i c _ _ _ _
      by_cases hc : (0 : Rat) ≤ c ∧ c ≤ 1
      · simp [hc]
      · rw [if_neg hc]
        simp only [Option.isSome_none, Bool.and_eq_true, decide_eq_true_eq]
        constructor
        · intro hcc; exact absurd hcc hc
        · intro hfalse; cases hfalse
    · simp

/-- C5 amended witness: the amended statement instantiated at a concrete
null-free findings array. -/
theorem c5_findings_amended_witness :
    Json.null ∉ [goodFindingJson, Json.num 5]
    ∧ validateFindings [goodFindingJson, Json.num 5]
        = .ok ([goodFindingJson, Json.num 5].filterMap findingOfJson)
    ∧ (claimValidFinding goodFindingJson = true
        ↔ (findingOfJson goodFindingJson).isSome) := by
  have h := c5_findings_amended [goodFindingJson, Json.num 5] (by simp [goodFindingJson])
  exact ⟨by simp [goodFindingJson], h.1, h.2 goodFindingJson⟩

/-- C3: under every gating-stage failure mode (missing configuration,
upstream error, unextractable or unparseable output, or a `review` field
that is missing or not a boolean) the route-level gating decision is `true`
(fail-open), the Review Stage is invoked exactly once, and the invocation
still reaches the single comment post rather than being dropped. -/
theorem c3_gating_fail_open (parseJson : String → Except String Json)
    (gdep rdep : Option String) (gllm rllm : Except String String)
    (post : Except (Nat × String) Unit)
    (hfail : gatingStageFails parseJson gdep gllm) :
    routeGatingDecision parseJson gdep gllm = true
    ∧ (pipelineOutcome parseJson gdep rdep gllm rllm post).2.reviewStageCalls = 1
    ∧ (pipelineOutcome parseJson gdep rdep gllm rllm post).2.postCalls = 1 := by
  have hg : routeGatingDecision parseJson gdep gllm = true := by
    rcases hfail with h | ⟨e, h⟩ | ⟨resp, h, hx⟩ | ⟨resp, cand, e, h, hx, hp⟩
      | ⟨resp, cand, parsed, h, hx, hp, hb⟩
    · subst h; rfl
    · subst h
      cases gdep <;> simp [routeGatingDecision, runGatingModel]
    · subst h
      cases gdep <;> simp [routeGatingDecision, runGatingModel, hx]
    · subst h
      cases gdep <;> simp [routeGatingDecision, runGatingModel, hx, hp]
    · subst h
      cases gdep with
      | none => rfl
      | some d => simp only [routeGatingDecision, runGatingModel, hx, hp]
  refine ⟨hg, ?_, ?_⟩ <;>
    · unfold pipelineOutcome
      rcases post with ⟨st, txt⟩ | u <;> simp [hg, fullTrace]

/-- C3 witness: the fail-open theorem instantiated at a gating response that
contains no extractable JSON object. -/
theorem c3_gating_fail_open_witness :
    routeGatingDecision (fun _ => .ok Json.null) (some "gate") (.ok "no json here") = true
    ∧ (pipelineOutcome (fun _ => .ok Json.null) (some "gate") (some "rev")
        (.ok "no json here") (.ok "no json here") (.ok ())).2.reviewStageCalls = 1
    ∧ (pipelineOutcome (fun _ => .ok Json.null) (some "gate") (some "rev")
        (.ok "no json here") (.ok "no json here") (.ok ())).2.postCalls = 1 :=
  c3_gating_fail_open (fun _ => .ok Json.null) (some "gate") (some "rev")
    (.ok "no json here") (.ok "no json here") (.ok ())
    (Or.inr (Or.inr (Or.inl ⟨"no json here", rfl, by decide⟩)))

/-- C4: under every review-stage failure mode (missing configuration,
upstream error, unextractable or unparseable output, or a response without
a `findings` array) the route-level review result is the empty findings
list; consequently, when gating demanded a review, the pipeline still posts
the fixed reassurance comment, and a successful post completes the
invocation with a 200 — the review stage itself never produces a 500. -/
theorem c4_review_fail_soft (parseJson : String → Except String Json)
    (gdep rdep : Option String) (gllm rllm : Except String String)
    (hfail : reviewStageFails parseJson rdep rllm) :
    routeReviewFindings parseJson rdep rllm = []
    ∧ (routeGatingDecision parseJson gdep gllm = true →
        (pipelineOutcome parseJson gdep rdep gllm rllm (.ok ())).1 = .success true 0
        ∧ ∀ post, (pipelineOutcome parseJson gdep rdep gllm rllm post).2.postBody
            = some reassuranceText) := by
  have hr : routeReviewFindings parseJson rdep rllm = [] := by
    rcases hfail with h | ⟨e, h⟩ | ⟨resp, h, hx⟩ | ⟨resp, cand, e, h, hx, hp⟩
      | ⟨resp, cand, parsed, h, hx, hp, hb⟩
    · subst h; rfl
    · subst h
      cases rdep <;> simp [routeReviewFindings, runReviewModel]
    · subst h
      cases rdep <;> simp [routeReviewFindings, runReviewModel, hx]
    · subst h
      cases rdep <;> simp [routeReviewFindings, runReviewModel, hx, hp]
    · subst h
      cases rdep with
      | none => rfl
      | some d =>
        simp only [routeReviewFindings, runReviewModel, hx, hp]
        rcases hj : jsGetProp parsed "findings" with e' | ov
        · simp [hj]
        · rcases ov with _ | v
          · simp [hj]
          · cases v with
            | arr es => exact absurd hj (hb es)
            | null => simp [hj, Json.truthy]
            | bool b => cases b <;> simp [hj, Json.truthy]
            | num q =>
              by_cases hq : q = 0 <;> simp [hj, Json.truthy, hq]
            | str s =>
              by_cases hs : s = "" <;> simp [hj, Json.truthy, hs]
            | obj fields => simp [hj, Json.truthy]
  refine ⟨hr, fun hg => ⟨?_, fun post => ?_⟩⟩
  · unfold pipelineOutcome
    simp [hg, hr, renderComment]
  · unfold pipelineOutcome
    rcases post with ⟨st, txt⟩ | u <;> simp [hg, hr, renderComment, fullTrace]

/-- C4 witness: the review fail-soft theorem instantiated at a missing
review deployment, with gating failing open to `true`. -/
theorem c4_review_fail_soft_witness :
    routeReviewFindings (fun _ => .ok Json.null) none (.ok "r") = []
    ∧ (pipelineOutcome (fun _ => .ok Json.null) (some "gate") none
        (.ok "r") (.ok "r") (.ok ())).1 = .success true 0
    ∧ (pipelineOutcome (fun _ => .ok Json.null) (some "gate") none
        (.ok "r") (.ok "r") (.error (502, "bad"))).2.postBody
        = some reassuranceText := by
  have h := c4_review_fail_soft (fun _ => .ok Json.null) (some "gate") none
    (.ok "r") (.ok "r") (Or.inl rfl)
  have hg : routeGatingDecision (fun _ => .ok Json.null) (some "gate") (.ok "r") = true := by
    decide
  exact ⟨h.1, (h.2 hg).1, (h.2 hg).2 (.error (502, "bad"))⟩

lemma insertDesc_perm (f : Finding) (l : List Finding) :
    List.Perm (insertDesc f l) (f :: l) := by
  induction l with
  | nil => exact List.Perm.refl _
  | cons g gs ih =>
    unfold insertDesc
    split
    · exact (ih.cons g).trans (List.Perm.swap f g gs)
    · exact List.Perm.refl _

lemma sortDesc_perm (l : List Finding) : List.Perm (sortDesc l) l := by
  induction l with
  | nil => exact List.Perm.refl _
  | cons f fs ih => exact (insertDesc_perm f (sortDesc fs)).trans (ih.cons f)

lemma insertDesc_sorted (f : Finding) {l : List Finding}
    (h : l.Pairwise (fun a b => b.confidence ≤ a.confidence)) :
    (insertDesc f l).Pairwise (fun a b => b.confidence ≤ a.confidence) := by
  induction l with
  | nil => simp [insertDesc]
  | cons g gs ih =>
    rw [List.pairwise_cons] at h
    obtain ⟨hg, hgs⟩ := h
    unfold insertDesc
    split
    · rename_i hlt
      refine List.Pairwise.cons ?_ (ih hgs)
      intro x hx
      rcases List.mem_cons.mp (((insertDesc_perm f gs).mem_iff).mp hx) with hxf | hxgs
      · subst hxf; exact le_of_lt hlt
      · exact hg x hxgs
    · rename_i hge
      refine List.Pairwise.cons ?_ (List.Pairwise.cons hg hgs)
      intro x hx
      rcases List.mem_cons.mp hx with hxg | hxgs
      · subst hxg; exact le_of_not_lt hge
      · exact (hg x hxgs).trans (le_of_not_lt hge)

lemma sortDesc_sorted (l : List Finding) :
    (sortDesc l).Pairwise (fun a b => b.confidence ≤ a.confidence) := by
  induction l with
  | nil => simp [sortDesc]
  | cons f fs ih => exact insertDesc_sorted f ih

/-- C6: the empty findings list renders the fixed reassurance message;
a non-empty list renders the risk heading over the blocks of the top (at
most) 3 findings sorted by confidence descending, joined by the separator;
the shown findings are sorted, at most 3, and all drawn from the validated
findings; and when gating decides against review the posted body is the
reassurance message. -/
theorem c6_render_findings (fs : List Finding) :
    renderComment [] = reassuranceText
    ∧ (fs ≠ [] →
        renderComment fs
          = "⚠️ Possible bug risk\n\n" ++
              String.intercalate "\n\n---\n\n"
                (((sortDesc fs).take 3).map renderFinding))
    ∧ ((sortDesc fs).take 3).Pairwise (fun a b => b.confidence ≤ a.confidence)
    ∧ ((sortDesc fs).take 3).length ≤ 3
    ∧ List.Perm (sortDesc fs) fs
    ∧ (∀ f ∈ (sortDesc fs).take 3, f ∈ fs)
    ∧ (∀ parseJson gdep rdep gllm rllm post,
        routeGatingDecision parseJson gdep gllm = false →
        (pipelineOutcome parseJson gdep rdep gllm rllm post).2.postBody
          = some reassuranceText) := by
  refine ⟨rfl, ?_, ?_, ?_, sortDesc_perm fs, ?_, ?_⟩
  · intro hne
    simp [renderComment, riskComment, hne]
  · exact (sortDesc_sorted fs).sublist (List.take_sublist 3 _)
  · simp [List.length_take]
  · intro f hf
    exact (sortDesc_perm fs).subset (List.mem_of_mem_take hf)
  · intro parseJson gdep rdep gllm rllm post hg
    unfold pipelineOutcome
    rcases post with ⟨st, txt⟩ | u <;> simp [hg, fullTrace]

/-- C6 witness: the rendering theorem instantiated at a concrete two-element
findings list and a concrete gating-declines run. -/
theorem c6_render_findings_witness :
    renderComment [(⟨"low", "ll", "lm", 0⟩ : Finding), ⟨"high", "hl", "hm", 1⟩]
      = "⚠️ Possible bug risk\n\n" ++
          String.intercalate "\n\n---\n\n"
            (((sortDesc [(⟨"low", "ll", "lm", 0⟩ : Finding), ⟨"high", "hl", "hm", 1⟩]).take 3).map
              renderFinding)
    ∧ (pipelineOutcome
        (fun _ => .ok (Json.obj [("review", .bool false)]))
        (some "gate") (some "rev") (.ok "\x7b\x7d") (.ok "\x7b\x7d") (.ok ())).2.postBody
      = some reassuranceText := by
  have h := c6_render_findings [(⟨"low", "ll", "lm", 0⟩ : Finding), ⟨"high", "hl", "hm", 1⟩]
  refine ⟨h.2.1 (by simp), ?_⟩
  exact h.2.2.2.2.2.2 (fun _ => .ok (Json.obj [("review", .bool false)]))
    (some "gate") (some "rev") (.ok "\x7b\x7d") (.ok "\x7b\x7d") (.ok ()) (by decide)

/-- C10: on a successful post, the reported `findingsCount` is the total
number of validated findings returned by the review step (`0` when gating
decided against review) — not the number rendered; whenever more than 3
findings were validated, that count strictly exceeds the at-most-3 findings
actually shown in the comment. -/
theorem c10_findings_count (parseJson : String → Except String Json)
    (gdep rdep : Option String) (gllm rllm : Except String String) :
    (pipelineOutcome parseJson gdep rdep gllm rllm (.ok ())).1
      = .success (routeGatingDecision parseJson gdep gllm)
          (if routeGatingDecision parseJson gdep gllm
           then (routeReviewFindings parseJson rdep rllm).length else 0)
    ∧ (routeGatingDecision parseJson gdep gllm = true →
        3 < (routeReviewFindings parseJson rdep rllm).length →
        ((sortDesc (routeReviewFindings parseJson rdep rllm)).take 3).length
          < (routeReviewFindings parseJson rdep rllm).length) := by
  constructor
  · cases hg : routeGatingDecision parseJson gdep gllm <;>
      simp [pipelineOutcome, hg]
  · intro _ h3
    have hlen : (sortDesc (routeReviewFindings parseJson rdep rllm)).length
        = (routeReviewFindings parseJson rdep rllm).length :=
      (sortDesc_perm _).length_eq
    simp only [List.length_take, hlen]
    omega

/-- C10 witness: a concrete run whose review step validates four findings —
the success response reports 4 while the comment shows only 3. -/
theorem c10_findings_count_witness :
    (pipelineOutcome fourFindingsParser (some "gate") (some "rev")
        (.ok "\x7bG\x7d") (.ok "\x7bR\x7d") (.ok ())).1
      = .success true 4
    ∧ ((sortDesc (routeReviewFindings fourFindingsParser (some "rev") (.ok "\x7bR\x7d"))).take 3).length
        < (routeReviewFindings fourFindingsParser (some "rev") (.ok "\x7bR\x7d")).length := by
  have h := c10_findings_count fourFindingsParser (some "gate") (some "rev")
    (.ok "\x7bG\x7d") (.ok "\x7bR\x7d")
  constructor
  · rw [h.1]
    decide
  · exact h.2 (by decide) (by decide)

lemma pipelineOutcome_post (parseJson : String → Except String Json)
    (gdep rdep : Option String) (gllm rllm : Except String String)
    (post : Except (Nat × String) Unit) :
    (pipelineOutcome parseJson gdep rdep gllm rllm post).2.postCalls = 1
    ∧ ((∃ d, (pipelineOutcome parseJson gdep rdep gllm rllm post).1 = .commentFailed d)
       ∨ (∃ b n, (pipelineOutcome parseJson gdep rdep gllm rllm post).1 = .success b n))
    ∧ (∀ st txt, post = .error (st, txt) →
        (pipelineOutcome parseJson gdep rdep gllm rllm post).1
          = .commentFailed ("Failed to post comment: " ++ toString st ++ " " ++ txt)) := by
  unfold pipelineOutcome
  rcases post with ⟨st, txt⟩ | u
  · refine ⟨by simp [fullTrace], Or.inl ⟨_, rfl⟩, ?_⟩
    intro st' txt' hp
    simp only [Except.error.injEq, Prod.mk.injEq] at hp
    obtain ⟨h1, h2⟩ := hp
    subst h1; subst h2
    simp
  · refine ⟨by simp [fullTrace], Or.inr ⟨_, _, rfl⟩, ?_⟩
    intro st' txt' hp
    exact Except.noConfusion hp

lemma webhookCore_ok_shape (hmacHex : String → String → String)
    (parseJson : String → Except String Json) (env : Env) (o : Oracle) (req : Req)
    (rt : Response × Trace)
    (h : webhookCore hmacHex parseJson env o req = .ok rt) :
    rt = pipelineOutcome parseJson env.gatingDeployment env.reviewDeployment
          o.gatingLLM o.reviewLLM o.postResult
    ∨ (rt.2.postCalls = 0
       ∧ (∀ d, rt.1 ≠ .commentFailed d)
       ∧ (∀ b n, rt.1 ≠ .success b n)) := by
  unfold webhookCore at h
  repeat' split at h
  all_goals
    first
      | exact Except.noConfusion h
      | (injection h with h; subst h; exact Or.inl rfl)
      | (injection h with h; subst h;
         exact Or.inr ⟨rfl, fun d hc => by simp at hc, fun b n hc => by simp at hc⟩)

/-- C1: every invocation posts at most once; a post call happens exactly
when the invocation terminates as `success` or `commentFailed` (so every
invocation that reaches the posting stage issues exactly one post call,
whichever rendering branch was taken, with no retry); and a non-2xx post
response surfaces as the terminal `commentFailed` failure with HTTP
status 500. -/
theorem c1_exactly_one_post (hmacHex : String → String → String)
    (parseJson : String → Except String Json) (env : Env) (o : Oracle) (req : Req) :
    (handleWebhook hmacHex parseJson env o req).2.postCalls ≤ 1
    ∧ ((handleWebhook hmacHex parseJson env o req).2.postCalls = 1 ↔
        (∃ d, (handleWebhook hmacHex parseJson env o req).1 = .commentFailed d)
        ∨ (∃ b n, (handleWebhook hmacHex parseJson env o req).1 = .success b n))
    ∧ (∀ st txt, o.postResult = .error (st, txt) →
        (handleWebhook hmacHex parseJson env o req).2.postCalls = 1 →
        (handleWebhook hmacHex parseJson env o req).1
            = .commentFailed ("Failed to post comment: " ++ toString st ++ " " ++ txt)
        ∧ ((handleWebhook hmacHex parseJson env o req).1).status = 500) := by
  unfold handleWebhook
  rcases hcore : webhookCore hmacHex parseJson env o req with e | rt <;>
    simp only [hcore]
  · refine ⟨by simp [zeroTrace], by simp [zeroTrace], ?_⟩
    intro st txt hp h1
    simp [zeroTrace] at h1
  · rcases webhookCore_ok_shape hmacHex parseJson env o req rt hcore
      with hpipe | ⟨hp0, hcf, hsc⟩
    · subst hpipe
      obtain ⟨hcalls, hshape, herr⟩ :=
        pipelineOutcome_post parseJson env.gatingDeployment env.reviewDeployment
          o.gatingLLM o.reviewLLM o.postResult
      refine ⟨by rw [hcalls], ⟨fun _ => hshape, fun _ => hcalls⟩, ?_⟩
      intro st txt hp h1
      refine ⟨herr st txt hp, ?_⟩
      rw [herr st txt hp]
      rfl
    · refine ⟨by rw [hp0]; exact Nat.zero_le 1, ?_, ?_⟩
      · constructor
        · intro h1; rw [hp0] at h1; exact absurd h1 (by simp)
        · rintro (⟨d, hd⟩ | ⟨b, n, hn⟩)
          · exact absurd hd (hcf d)
          · exact absurd hn (hsc b n)
      · intro st txt hp h1
        rw [hp0] at h1
        exact absurd h1 (by simp)

/-- C1 witness: a concrete invocation that passes the filter, reaches the
posting stage, and whose post call fails with an upstream 503. -/
theorem c1_exactly_one_post_witness :
    (handleWebhook hmacConst fullPayloadParser envAll oraclePostFail reqInvoke).2.postCalls = 1
    ∧ (handleWebhook hmacConst fullPayloadParser envAll oraclePostFail reqInvoke).1
        = .commentFailed ("Failed to post comment: " ++ toString 503 ++ " " ++ "oops")
    ∧ ((handleWebhook hmacConst fullPayloadParser envAll oraclePostFail reqInvoke).1).status
        = 500 := by
  have h := c1_exactly_one_post hmacConst fullPayloadParser envAll oraclePostFail reqInvoke
  have h1 : (handleWebhook hmacConst fullPayloadParser envAll oraclePostFail reqInvoke).2.postCalls
      = 1 := by decide
  exact ⟨h1, (h.2.2 503 "oops" rfl h1).1, (h.2.2 503 "oops" rfl h1).2⟩

/-- C2 counterexample: with the secret configured and a signature that is
present but does not match the expected digest, the claim demands HTTP 401
— but when the signature's byte length differs from the expected
`sha256=<hex>` string, `timingSafeEqual` throws, the outer catch fires, and
the invocation terminates with HTTP 500 instead.  (No downstream call
occurs either way.) -/
theorem c2_signature_counterexample :
    (Req.mk "body" ⟨some "sha256=xy", some "issue_comment"⟩).headers.signature
      = some "sha256=xy"
    ∧ "sha256=xy" ≠ "sha256=" ++ hmacConst "sec" "body"
    ∧ ((handleWebhook hmacConst fullPayloadParser envAll oraclePostFail
          (Req.mk "body" ⟨some "sha256=xy", some "issue_comment"⟩)).1).status = 500
    ∧ ((handleWebhook hmacConst fullPayloadParser envAll oraclePostFail
          (Req.mk "body" ⟨some "sha256=xy", some "issue_comment"⟩)).1).status ≠ 401
    ∧ (handleWebhook hmacConst fullPayloadParser envAll oraclePostFail
          (Req.mk "body" ⟨some "sha256=xy", some "issue_comment"⟩)).2 = zeroTrace := by
  refine ⟨rfl, by decide, by decide, by decide, by decide⟩

/-- C2 amended: with the secret configured, a JS-falsy signature — a
missing header, or a present but empty one — is rejected with 401 before
the comparison runs; a present non-empty signature different from the
expected digest is rejected with 401 when its byte length equals the
expected string's, and fails with HTTP 500 (uncaught `timingSafeEqual`
RangeError) when the byte lengths differ; in every such case no downstream
call of any kind occurs (the trace is zero). -/
theorem c2_signature_amended (hmacHex : String → String → String)
    (parseJson : String → Except String Json) (env : Env) (o : Oracle) (req : Req)
    (secret : String) (hsec : env.webhookSecret = some secret) :
    (req.headers.signature = none →
      handleWebhook hmacHex parseJson env o req = (.invalidSignature, zeroTrace))
    ∧ ∀ sig, req.headers.signature = some sig →
        sig ≠ "sha256=" ++ hmacHex secret req.rawBody →
        ((handleWebhook hmacHex parseJson env o req).2 = zeroTrace
         ∧ (sig = "" →
             (handleWebhook hmacHex parseJson env o req).1 = .invalidSignature)
         ∧ (sig ≠ "" →
             bufLen sig = bufLen ("sha256=" ++ hmacHex secret req.rawBody) →
             (handleWebhook hmacHex parseJson env o req).1 = .invalidSignature)
         ∧ (sig ≠ "" →
             bufLen sig ≠ bufLen ("sha256=" ++ hmacHex secret req.rawBody) →
             ((handleWebhook hmacHex parseJson env o req).1).status = 500)) := by
  constructor
  · intro hnone
    have hcore : webhookCore hmacHex parseJson env o req
        = .ok (.invalidSignature, zeroTrace) := by
      unfold webhookCore
      simp only [hsec, hnone]
    unfold handleWebhook
    rw [hcore]
  · intro sig hsig hneq
    by_cases hemp : sig = ""
    · subst hemp
      have hcore : webhookCore hmacHex parseJson env o req
          = .ok (.invalidSignature, zeroTrace) := by
        unfold webhookCore
        simp [hsec, hsig]
      unfold handleWebhook
      rw [hcore]
      exact ⟨rfl, fun _ => rfl, fun hne => absurd rfl hne, fun hne => absurd rfl hne⟩
    · by_cases hlen : bufLen sig = bufLen ("sha256=" ++ hmacHex secret req.rawBody)
      · have hts : timingSafeEqual sig ("sha256=" ++ hmacHex secret req.rawBody)
            = .ok false := by
          unfold timingSafeEqual
          rw [if_pos hlen]
          simp [hneq]
        have hcore : webhookCore hmacHex parseJson env o req
            = .ok (.invalidSignature, zeroTrace) := by
          unfold webhookCore
          simp only [hsec, hsig, if_neg hemp, hts, ite_true]
        unfold handleWebhook
        rw [hcore]
        exact ⟨rfl, fun h => absurd h hemp, fun _ _ => rfl,
               fun _ hcontra => absurd hlen hcontra⟩
      · have hts : timingSafeEqual sig ("sha256=" ++ hmacHex secret req.rawBody)
            = .error "RangeError: Input buffers must have the same byte length" := by
          unfold timingSafeEqual
          rw [if_neg hlen]
        have hcore : webhookCore hmacHex parseJson env o req
            = .error "RangeError: Input buffers must have the same byte length" := by
          unfold webhookCore
          simp only [hsec, hsig, if_neg hemp, hts]
        unfold handleWebhook
        rw [hcore]
        exact ⟨rfl, fun h => absurd h hemp, fun _ hcontra => absurd hcontra hlen,
               fun _ _ => rfl⟩

/-- C2 amended witness: a same-length mismatched non-empty signature is
rejected with 401 with no downstream calls, and a present empty signature
is likewise rejected with 401. -/
theorem c2_signature_amended_witness :
    (handleWebhook hmacConst fullPayloadParser envAll oraclePostFail
        (Req.mk "body" ⟨some "sha256=g", some "issue_comment"⟩)).2 = zeroTrace
    ∧ (handleWebhook hmacConst fullPayloadParser envAll oraclePostFail
        (Req.mk "body" ⟨some "sha256=g", some "issue_comment"⟩)).1 = .invalidSignature
    ∧ (handleWebhook hmacConst fullPayloadParser envAll oraclePostFail
        (Req.mk "body" ⟨some "", some "issue_comment"⟩)).1 = .invalidSignature := by
  have h := (c2_signature_amended hmacConst fullPayloadParser envAll oraclePostFail
      (Req.mk "body" ⟨some "sha256=g", some "issue_comment"⟩) "sec" rfl).2
      "sha256=g" rfl (by decide)
  have hempty := (c2_signature_amended hmacConst fullPayloadParser envAll oraclePostFail
      (Req.mk "body" ⟨some "", some "issue_comment"⟩) "sec" rfl).2
      "" rfl (by decide)
  exact ⟨h.1, h.2.2.1 (by decide) (by decide), hempty.2.1 rfl⟩
